import Mathlib

/-!
# Verification of the ai-pump-simulator numerical engine

Shallow embedding, over ℚ, of the numerical core of the pump simulator:
the valve/PID/AI power models (both generations present in the source),
curve fitting (quadratic least squares via Gaussian elimination, and the
system-curve linear fit), the transient-response simulator, and the
control-metrics extractor.  JavaScript numbers are modelled as exact
rationals; `Math.round` is modelled as `⌊x + 1/2⌋` (round half up),
which is its exact semantics on the reals.
-/

namespace PumpSim

/-- JavaScript's `Math.round`: round half toward +∞, i.e. `⌊x + 1/2⌋`. -/
def jsRound (x : ℚ) : ℤ := ⌊x + 1/2⌋

/-- `Math.round(x * 100) / 100` — round to 2 decimal places. -/
def round2 (x : ℚ) : ℚ := (jsRound (x * 100) : ℚ) / 100

/-- `Math.round(x * 10) / 10` — round to 1 decimal place. -/
def round1 (x : ℚ) : ℚ := (jsRound (x * 10) : ℚ) / 10

/-- The piecewise-linear interpolation loop shared by `getValvePower`
(both generations) and `getMotorEfficiency`:
scan adjacent pairs `(x_i, y_i), (x_{i+1}, y_{i+1})`; on the first
segment with `x_i ≤ x ≤ x_{i+1}` return the linear interpolant;
`none` when no segment matches (caller supplies the clamped fallback). -/
def linInterp : List (ℚ × ℚ) → ℚ → Option ℚ
  | p :: q :: rest, x =>
      if p.1 ≤ x ∧ x ≤ q.1 then
        some (p.2 + (x - p.1) / (q.1 - p.1) * (q.2 - p.2))
      else linInterp (q :: rest) x
  | _, _ => none

/-! ## Generation 1 power model
`src/workspace/lib/energy-calculations.ts` with the valve table of
`src/workspace/lib/constants.ts` (7 stages, flows 0‥25). -/

namespace Gen1

/-- `VALVE_STAGES` (flow, power) columns from `constants.ts`. -/
def VALVE_STAGES : List (ℚ × ℚ) :=
  [(0, 5.5), (5, 7.5), (11, 10.4), (15, 11.9), (18, 12.5), (21, 13.2), (25, 13.6)]

def FIXED_LOSS_AI : ℚ := 1.22
def FIXED_LOSS_PID : ℚ := 1.47
def RATED_FLOW : ℚ := 25
def MIN_SAVING_AI : ℚ := 0.02
def MIN_SAVING_PID : ℚ := 0.01

/-- `getValvePower` (energy-calculations.ts): flow ≤ 0 returns the first
stage's power; otherwise linear interpolation over the stage table; past
the table, the last stage's power. -/
def getValvePower (targetFlow : ℚ) : ℚ :=
  if targetFlow ≤ 0 then 5.5
  else (linInterp VALVE_STAGES targetFlow).getD 13.6

/-- `calculateInverterPower` (generation 1).  The source's default
arguments are `ratedFlow = RATED_FLOW`, `fixedLoss = FIXED_LOSS_AI`;
they are passed explicitly here. -/
def calculateInverterPower (targetFlow ratedFlow fixedLoss : ℚ) : ℚ :=
  if targetFlow ≤ 0 then fixedLoss
  else
    let valvePower := getValvePower targetFlow
    let flowRatio := min (targetFlow / ratedFlow) 1
    let ratedValvePower := getValvePower ratedFlow
    let theoreticalPower := fixedLoss + (ratedValvePower - fixedLoss) * flowRatio ^ 3
    let maxAllowedPower := valvePower * (1 - MIN_SAVING_AI)
    min theoreticalPower maxAllowedPower

/-- `calculatePIDPower` (generation 1): 0.4/0.6 blend of the AI power and
the valve cap, floored at the PID fixed loss. -/
def calculatePIDPower (targetFlow ratedFlow : ℚ) : ℚ :=
  if targetFlow ≤ 0 then FIXED_LOSS_PID
  else
    let valvePower := getValvePower targetFlow
    let aiPower := calculateInverterPower targetFlow ratedFlow FIXED_LOSS_AI
    let maxAllowedPower := valvePower * (1 - MIN_SAVING_PID)
    let pidPower := aiPower * 0.4 + maxAllowedPower * 0.6
    max pidPower FIXED_LOSS_PID

/-- On the table's flow range the valve power never drops below the first
stage's 5.5 kW. -/
lemma getValvePower_lower (q : ℚ) : (5.5 : ℚ) ≤ getValvePower q := by
  unfold getValvePower
  simp only [VALVE_STAGES, linInterp]
  split_ifs with h1 h2 h3 h4 h5 h6 h7 <;>
    (try simp only [Option.getD_some, Option.getD_none]) <;>
    try norm_num
  all_goals
    first
      | linarith [h2.1, h2.2]
      | linarith [h3.1, h3.2]
      | linarith [h4.1, h4.2]
      | linarith [h5.1, h5.2]
      | linarith [h6.1, h6.2]
      | linarith [h7.1, h7.2]

/-- The valve power is bounded by the last stage's 13.6 kW. -/
lemma getValvePower_upper (q : ℚ) : getValvePower q ≤ 13.6 := by
  unfold getValvePower
  simp only [VALVE_STAGES, linInterp]
  split_ifs with h1 h2 h3 h4 h5 h6 h7 <;>
    (try simp only [Option.getD_some, Option.getD_none]) <;>
    try norm_num
  all_goals
    first
      | linarith [h2.1, h2.2]
      | linarith [h3.1, h3.2]
      | linarith [h4.1, h4.2]
      | linarith [h5.1, h5.2]
      | linarith [h6.1, h6.2]
      | linarith [h7.1, h7.2]

end Gen1

/-! ## Generation 2 power model
`src/unnamed/part_005` (energy-calculations, Phase-2 spec) with the
Phase-2 constants of `src/unnamed/part_007` (9-stage valve table, flows
0‥24.3, `PUMP_RATED.POWER = 12.88`, `PUMP_RATED.FLOW = 20.5`). -/

namespace Gen2

/-- Phase-2 `VALVE_STAGES` (flow, power) columns. -/
def VALVE_STAGES : List (ℚ × ℚ) :=
  [(0, 5.50), (6, 7.91), (11.8, 10.48), (14.8, 11.55), (16.2, 11.96),
   (18.1, 12.55), (19.8, 12.88), (22.3, 13.37), (24.3, 13.59)]

def PUMP_RATED_POWER : ℚ := 12.88
def FIXED_LOSS_AI : ℚ := PUMP_RATED_POWER * 0.18
def FIXED_LOSS_PID : ℚ := PUMP_RATED_POWER * 0.20
def RATED_FLOW : ℚ := 20.5
def RATED_POWER : ℚ := PUMP_RATED_POWER
def MIN_SAVING_AI : ℚ := 0.02
def MIN_SAVING_PID : ℚ := 0.01
def VFD_DRIVE : ℚ := 0.97
def PID_OVERHEAD : ℚ := 1.05

/-- Phase-2 `getValvePower`: the flow is clamped to ≥ 0 first; flow 0
returns the first stage's power; beyond the table, the last stage's. -/
def getValvePower (targetFlow : ℚ) : ℚ :=
  let flow := max targetFlow 0
  if flow ≤ 0 then 5.50
  else (linInterp VALVE_STAGES flow).getD 13.59

/-- `getMotorEfficiency`: 5-point piecewise-linear partial-load motor
efficiency, load ratio clamped to [0, 1]. -/
def getMotorEfficiency (loadRatio : ℚ) : ℚ :=
  let points : List (ℚ × ℚ) := [(0, 0.75), (0.25, 0.85), (0.5, 0.90), (0.75, 0.93), (1, 0.92)]
  let clampedRatio := max 0 (min 1 loadRatio)
  (linInterp points clampedRatio).getD 0.92

/-- Phase-2 `calculateInverterPower`: affinity-law cube on the variable
portion, divided by VFD × motor efficiency, capped at the valve power
minus the minimum AI saving. -/
def calculateInverterPower (targetFlow ratedFlow : ℚ) : ℚ :=
  let fixedLoss := FIXED_LOSS_AI
  let ratedPower := RATED_POWER
  if targetFlow ≤ 0 then fixedLoss
  else
    let flowRatio := min (targetFlow / ratedFlow) 1
    let variablePower := (ratedPower - fixedLoss) * flowRatio ^ 3
    let basePower := fixedLoss + variablePower
    let loadRatio := basePower / ratedPower
    let motorEfficiency := getMotorEfficiency loadRatio
    let efficiencyFactor := 1 / (VFD_DRIVE * motorEfficiency)
    let totalPower := basePower * efficiencyFactor
    let valvePower := getValvePower targetFlow
    let maxAllowedPower := valvePower * (1 - MIN_SAVING_AI)
    min totalPower maxAllowedPower

/-- Phase-2 `calculatePIDPower`: AI power times a 5% overhead, capped at
the valve power minus the minimum PID saving. -/
def calculatePIDPower (targetFlow ratedFlow : ℚ) : ℚ :=
  if targetFlow ≤ 0 then FIXED_LOSS_PID
  else
    let aiPower := calculateInverterPower targetFlow ratedFlow
    let valvePower := getValvePower targetFlow
    let pidPower := aiPower * PID_OVERHEAD
    let maxAllowedPower := valvePower * (1 - MIN_SAVING_PID)
    min pidPower maxAllowedPower

/-- The Phase-2 valve power never drops below the first stage's 5.5 kW. -/
lemma getValvePower_lower_p2 (q : ℚ) : (5.5 : ℚ) ≤ getValvePower q := by
  unfold getValvePower
  simp only [VALVE_STAGES, linInterp]
  split_ifs with h1 h2 h3 h4 h5 h6 h7 h8 h9 <;>
    (try simp only [Option.getD_some, Option.getD_none]) <;>
    try norm_num
  all_goals
    first
      | linarith [h2.1, h2.2]
      | linarith [h3.1, h3.2]
      | linarith [h4.1, h4.2]
      | linarith [h5.1, h5.2]
      | linarith [h6.1, h6.2]
      | linarith [h7.1, h7.2]
      | linarith [h8.1, h8.2]
      | linarith [h9.1, h9.2]

/-- The partial-load motor efficiency stays within [0.75, 0.93]. -/
lemma getMotorEfficiency_bounds (r : ℚ) :
    (0.75 : ℚ) ≤ getMotorEfficiency r ∧ getMotorEfficiency r ≤ 0.93 := by
  unfold getMotorEfficiency
  simp only [linInterp]
  split_ifs with h1 h2 h3 h4 <;>
    (try simp only [Option.getD_some, Option.getD_none]) <;>
    constructor <;>
    try norm_num
  all_goals
    first
      | linarith [h1.1, h1.2]
      | linarith [h2.1, h2.2]
      | linarith [h3.1, h3.2]
      | linarith [h4.1, h4.2]

end Gen2

/-! ### Power-ordering lemmas -/

namespace Gen1

lemma ai_le_cap (q : ℚ) (hq : 0 < q) :
    calculateInverterPower q RATED_FLOW FIXED_LOSS_AI ≤
      getValvePower q * (1 - MIN_SAVING_AI) := by
  unfold calculateInverterPower
  rw [if_neg (not_le.mpr hq)]
  exact min_le_right _ _

lemma strict_ordering (q : ℚ) (hq : 0 < q) :
    calculateInverterPower q RATED_FLOW FIXED_LOSS_AI < calculatePIDPower q RATED_FLOW ∧
      calculatePIDPower q RATED_FLOW < getValvePower q := by
  have hv := getValvePower_lower q
  have hcap := ai_le_cap q hq
  norm_num [MIN_SAVING_AI] at hcap
  unfold calculatePIDPower
  rw [if_neg (not_le.mpr hq)]
  set v := getValvePower q with hvdef
  set a := calculateInverterPower q RATED_FLOW FIXED_LOSS_AI with hadef
  norm_num [MIN_SAVING_PID, FIXED_LOSS_PID]
  constructor
  · left
    linarith
  · constructor <;> linarith

end Gen1

namespace Gen2

lemma ai_le_cap_p2 (q : ℚ) (hq : 0 < q) :
    calculateInverterPower q RATED_FLOW ≤ getValvePower q * (1 - MIN_SAVING_AI) := by
  unfold calculateInverterPower
  rw [if_neg (not_le.mpr hq)]
  exact min_le_right _ _

lemma ai_pos (q : ℚ) (hq : 0 < q) : 0 < calculateInverterPower q RATED_FLOW := by
  have hv := getValvePower_lower_p2 q
  unfold calculateInverterPower
  rw [if_neg (not_le.mpr hq)]
  simp only
  apply lt_min
  · have hfr : (0 : ℚ) ≤ min (q / RATED_FLOW) 1 := by
      apply le_min
      · exact div_nonneg hq.le (by norm_num [RATED_FLOW])
      · norm_num
    have hbase : (0 : ℚ) < FIXED_LOSS_AI + (RATED_POWER - FIXED_LOSS_AI) * min (q / RATED_FLOW) 1 ^ 3 := by
      have h1 : (0 : ℚ) ≤ (RATED_POWER - FIXED_LOSS_AI) * min (q / RATED_FLOW) 1 ^ 3 := by
        apply mul_nonneg
        · norm_num [RATED_POWER, FIXED_LOSS_AI, PUMP_RATED_POWER]
        · exact pow_nonneg hfr 3
      have hfl : (0 : ℚ) < FIXED_LOSS_AI := by
        norm_num [FIXED_LOSS_AI, PUMP_RATED_POWER]
      linarith
    have hm := getMotorEfficiency_bounds
      ((FIXED_LOSS_AI + (RATED_POWER - FIXED_LOSS_AI) * min (q / RATED_FLOW) 1 ^ 3) / RATED_POWER)
    have hmp : (0 : ℚ) <
        getMotorEfficiency
          ((FIXED_LOSS_AI + (RATED_POWER - FIXED_LOSS_AI) * min (q / RATED_FLOW) 1 ^ 3) / RATED_POWER) := by
      linarith [hm.1]
    have hvfd : (0 : ℚ) < VFD_DRIVE := by norm_num [VFD_DRIVE]
    exact mul_pos hbase (div_pos one_pos (mul_pos hvfd hmp))
  · have h2 : (0 : ℚ) < 1 - MIN_SAVING_AI := by norm_num [MIN_SAVING_AI]
    exact mul_pos (lt_of_lt_of_le (by norm_num) hv) h2

lemma strict_ordering_p2 (q : ℚ) (hq : 0 < q) :
    calculateInverterPower q RATED_FLOW < calculatePIDPower q RATED_FLOW ∧
      calculatePIDPower q RATED_FLOW < getValvePower q := by
  have hv := getValvePower_lower_p2 q
  have hcap := ai_le_cap_p2 q hq
  have hpos := ai_pos q hq
  norm_num [MIN_SAVING_AI] at hcap
  unfold calculatePIDPower
  rw [if_neg (not_le.mpr hq)]
  set v := getValvePower q with hvdef
  set a := calculateInverterPower q RATED_FLOW with hadef
  norm_num [MIN_SAVING_PID, PID_OVERHEAD]
  constructor
  · constructor <;> linarith
  · right
    linarith

end Gen2

/-- C1: for every flow in [0, maxTableFlow], the three power strategies
obey `getValvePower ≥ calculatePIDPower ≥ calculateInverterPower`, with
strict inequality except possibly at flow = 0, in both implementation
variants of the power model (maxTableFlow is 25 for generation 1 and
24.3 for generation 2). -/
theorem power_ordering_invariant (q : ℚ) (h0 : 0 ≤ q) :
    (q ≤ 25 →
      Gen1.calculateInverterPower q Gen1.RATED_FLOW Gen1.FIXED_LOSS_AI ≤
          Gen1.calculatePIDPower q Gen1.RATED_FLOW ∧
        Gen1.calculatePIDPower q Gen1.RATED_FLOW ≤ Gen1.getValvePower q ∧
        (0 < q →
          Gen1.calculateInverterPower q Gen1.RATED_FLOW Gen1.FIXED_LOSS_AI <
              Gen1.calculatePIDPower q Gen1.RATED_FLOW ∧
            Gen1.calculatePIDPower q Gen1.RATED_FLOW < Gen1.getValvePower q)) ∧
    (q ≤ 24.3 →
      Gen2.calculateInverterPower q Gen2.RATED_FLOW ≤
          Gen2.calculatePIDPower q Gen2.RATED_FLOW ∧
        Gen2.calculatePIDPower q Gen2.RATED_FLOW ≤ Gen2.getValvePower q ∧
        (0 < q →
          Gen2.calculateInverterPower q Gen2.RATED_FLOW <
              Gen2.calculatePIDPower q Gen2.RATED_FLOW ∧
            Gen2.calculatePIDPower q Gen2.RATED_FLOW < Gen2.getValvePower q)) := by
  rcases eq_or_lt_of_le h0 with hq | hq
  · refine ⟨fun _ => ⟨?_, ?_, fun h => absurd h (by rw [← hq]; exact lt_irrefl 0)⟩,
      fun _ => ⟨?_, ?_, fun h => absurd h (by rw [← hq]; exact lt_irrefl 0)⟩⟩ <;>
      rw [← hq] <;>
      norm_num [Gen1.calculateInverterPower, Gen1.calculatePIDPower, Gen1.getValvePower,
        Gen1.FIXED_LOSS_AI, Gen1.FIXED_LOSS_PID, Gen2.calculateInverterPower,
        Gen2.calculatePIDPower, Gen2.getValvePower, Gen2.FIXED_LOSS_AI, Gen2.FIXED_LOSS_PID,
        Gen2.PUMP_RATED_POWER]
  · have h1 := Gen1.strict_ordering q hq
    have h2 := Gen2.strict_ordering_p2 q hq
    exact ⟨fun _ => ⟨h1.1.le, h1.2.le, fun _ => h1⟩,
      fun _ => ⟨h2.1.le, h2.2.le, fun _ => h2⟩⟩

/-- Witness for C1 at flow = 10. -/
theorem power_ordering_invariant_witness :
    (0 : ℚ) ≤ 10 ∧
      Gen1.calculateInverterPower 10 Gen1.RATED_FLOW Gen1.FIXED_LOSS_AI <
          Gen1.calculatePIDPower 10 Gen1.RATED_FLOW ∧
        Gen2.calculateInverterPower 10 Gen2.RATED_FLOW <
          Gen2.calculatePIDPower 10 Gen2.RATED_FLOW :=
  ⟨by norm_num,
    (((power_ordering_invariant 10 (by norm_num)).1 (by norm_num)).2.2 (by norm_num)).1,
    (((power_ordering_invariant 10 (by norm_num)).2 (by norm_num)).2.2 (by norm_num)).1⟩

/-- C6: for every flow ≥ 0 the AI/inverter power never exceeds
`getValvePower(flow) × (1 − minSavingAI)` (minSavingAI = 0.02), in both
implementation variants. -/
theorem inverter_cap_invariant (q : ℚ) (h0 : 0 ≤ q) :
    Gen1.calculateInverterPower q Gen1.RATED_FLOW Gen1.FIXED_LOSS_AI ≤
        Gen1.getValvePower q * (1 - Gen1.MIN_SAVING_AI) ∧
      Gen2.calculateInverterPower q Gen2.RATED_FLOW ≤
        Gen2.getValvePower q * (1 - Gen2.MIN_SAVING_AI) := by
  rcases eq_or_lt_of_le h0 with hq | hq
  · constructor <;> rw [← hq] <;>
      norm_num [Gen1.calculateInverterPower, Gen1.getValvePower, Gen1.FIXED_LOSS_AI,
        Gen1.MIN_SAVING_AI, Gen2.calculateInverterPower, Gen2.getValvePower,
        Gen2.FIXED_LOSS_AI, Gen2.MIN_SAVING_AI, Gen2.PUMP_RATED_POWER]
  · exact ⟨Gen1.ai_le_cap q hq, Gen2.ai_le_cap_p2 q hq⟩

/-- Witness for C6 at flow = 7. -/
theorem inverter_cap_invariant_witness :
    (0 : ℚ) ≤ 7 ∧
      Gen1.calculateInverterPower 7 Gen1.RATED_FLOW Gen1.FIXED_LOSS_AI ≤
          Gen1.getValvePower 7 * (1 - Gen1.MIN_SAVING_AI) ∧
        Gen2.calculateInverterPower 7 Gen2.RATED_FLOW ≤
          Gen2.getValvePower 7 * (1 - Gen2.MIN_SAVING_AI) :=
  ⟨by norm_num, (inverter_cap_invariant 7 (by norm_num)).1,
    (inverter_cap_invariant 7 (by norm_num)).2⟩

/-! ## Control metrics extractor
`src/unnamed/part_000` (metrics module): transition time, overshoot and
settling time over a `{time, value}` series. -/

/-- One `{time, value}` sample of a flow time series. -/
structure Sample where
  time : ℚ
  value : ℚ
deriving DecidableEq

/-- `{transitionTime, overshoot, settlingTime}`. -/
structure ResponseMetrics where
  transitionTime : ℚ
  overshoot : ℚ
  settlingTime : ℚ
deriving DecidableEq

/-- `calculateTransitionTime`: time between the first 10%-of-delta and the
first 90%-of-delta crossings, direction-aware; a threshold that is never
crossed contributes time 0 (the `?? 0` fallback). -/
def calculateTransitionTime (timeSeries : List Sample) (startValue targetValue : ℚ) : ℚ :=
  if timeSeries = [] then 0
  else
    let delta := targetValue - startValue
    if |delta| < 0.01 then 0
    else if 0 < delta then
      let threshold10 := startValue + delta * 0.1
      let threshold90 := startValue + delta * 0.9
      let t10 := ((timeSeries.find? fun p => decide (threshold10 ≤ p.value)).map Sample.time).getD 0
      let t90 := ((timeSeries.find? fun p => decide (threshold90 ≤ p.value)).map Sample.time).getD 0
      t90 - t10
    else
      let threshold10 := startValue + delta * 0.1
      let threshold90 := startValue + delta * 0.9
      let t10 := ((timeSeries.find? fun p => decide (p.value ≤ threshold10)).map Sample.time).getD 0
      let t90 := ((timeSeries.find? fun p => decide (p.value ≤ threshold90)).map Sample.time).getD 0
      t90 - t10

/-- `calculateOvershoot`: percentage by which the series' extreme passes
the target, direction-aware; 0 when the delta or the target is (near) 0
or the target is never passed. -/
def calculateOvershoot (timeSeries : List Sample) (startValue targetValue : ℚ) : ℚ :=
  if timeSeries = [] then 0
  else
    let delta := targetValue - startValue
    if |delta| < 0.01 then 0
    else if |targetValue| < 0.01 then 0
    else if 0 < delta then
      let maxValue := ((timeSeries.map Sample.value).max?).getD 0
      if maxValue ≤ targetValue then 0
      else (maxValue - targetValue) / |delta| * 100
    else
      let minValue := ((timeSeries.map Sample.value).min?).getD 0
      if targetValue ≤ minValue then 0
      else (targetValue - minValue) / |delta| * 100

/-- The ±tolerance settling band: relative to the target when `|target| >
0.1`, else relative to the delta. -/
def settlingBand (startValue targetValue tolerance : ℚ) : ℚ :=
  if |targetValue| > 0.1 then |targetValue| * tolerance
  else |targetValue - startValue| * tolerance

/-- The backward scan of `calculateSettlingTime`, walking the reversed
series; `next` carries the sample at index i+1 (`none` at the last
index).  Returns the early-returned settling time, `none` when the loop
runs to completion. -/
def settleLoop (lowerBound upperBound : ℚ) : List Sample → Option Sample → Option ℚ
  | [], _ => none
  | p :: rest, next =>
      if p.value < lowerBound ∨ upperBound < p.value then
        some ((next.map Sample.time).getD p.time)
      else settleLoop lowerBound upperBound rest (some p)

/-- `calculateSettlingTime`: timestamp of the sample immediately after the
last sample outside the ±band (scanning backward); the first sample's
time when the whole series is inside the band. -/
def calculateSettlingTime (timeSeries : List Sample) (startValue targetValue tolerance : ℚ) : ℚ :=
  if timeSeries = [] then 0
  else
    let delta := targetValue - startValue
    if |delta| < 0.01 then 0
    else
      let band := settlingBand startValue targetValue tolerance
      let lowerBound := targetValue - band
      let upperBound := targetValue + band
      match settleLoop lowerBound upperBound timeSeries.reverse none with
      | some r => r
      | none => ((timeSeries.head?).map Sample.time).getD 0

/-- `calculateControlMetrics`: the three metrics; the start value defaults
to the first sample's value; the settling tolerance defaults to 0.02. -/
def calculateControlMetrics (timeSeries : List Sample) (targetValue : ℚ)
    (startValue : Option ℚ) : ResponseMetrics :=
  let start := startValue.getD (((timeSeries.head?).map Sample.value).getD 0)
  { transitionTime := calculateTransitionTime timeSeries start targetValue
    overshoot := calculateOvershoot timeSeries start targetValue
    settlingTime := calculateSettlingTime timeSeries start targetValue 0.02 }

/-- If the series' times are nondecreasing and predicate `q` implies `p`,
then the first `q`-match is found no earlier than the first `p`-match. -/
lemma find?_time_le {p q : Sample → Bool} :
    ∀ ts : List Sample, ts.Pairwise (fun a b => a.time ≤ b.time) →
      (∀ x, q x = true → p x = true) → ∀ b, ts.find? q = some b →
      ∃ a, ts.find? p = some a ∧ a.time ≤ b.time := by
  intro ts
  induction ts with
  | nil => intro _ _ b hb; simp at hb
  | cons x xs ih =>
    intro hsort himp b hb
    rcases List.pairwise_cons.mp hsort with ⟨hx, hxs⟩
    by_cases hqx : q x
    · rw [List.find?_cons_of_pos _ hqx] at hb
      have hxb : x = b := by injection hb
      subst hxb
      exact ⟨x, by rw [List.find?_cons_of_pos _ (himp x hqx)], le_refl _⟩
    · rw [List.find?_cons_of_neg _ (by simpa using hqx)] at hb
      by_cases hpx : p x
      · exact ⟨x, by rw [List.find?_cons_of_pos _ hpx],
          hx b (List.mem_of_find?_eq_some hb)⟩
      · obtain ⟨a, ha, hab⟩ := ih hxs himp b hb
        exact ⟨a, by rw [List.find?_cons_of_neg _ (by simpa using hpx)]; exact ha, hab⟩

/-- Every early return of the backward settling scan is a sample's
timestamp; when all those timestamps are nonnegative so is the result. -/
lemma settleLoop_nonneg (lb ub : ℚ) :
    ∀ (l : List Sample) (next : Option Sample) (r : ℚ),
      (∀ p ∈ l, 0 ≤ p.time) → (∀ p, next = some p → 0 ≤ p.time) →
      settleLoop lb ub l next = some r → 0 ≤ r := by
  intro l
  induction l with
  | nil => intro next r _ _ h; simp [settleLoop] at h
  | cons x xs ih =>
    intro next r hl hnext h
    rw [settleLoop] at h
    split_ifs at h
    · cases next with
      | none =>
        simp only [Option.map_none', Option.getD_none, Option.some.injEq] at h
        exact h ▸ hl x (List.mem_cons_self x xs)
      | some p =>
        simp only [Option.map_some', Option.getD_some, Option.some.injEq] at h
        exact h ▸ hnext p rfl
    · exact ih (some x) r (fun p hp => hl p (List.mem_cons_of_mem _ hp))
        (fun p hp => by
          have hxp : x = p := by injection hp
          exact hxp ▸ hl x (List.mem_cons_self x xs)) h

/-- The 90%-threshold is crossed whenever the 10%-threshold is (direction
aware); this is what makes the t90 − t10 difference meaningful. -/
def thresholdsCrossed (ts : List Sample) (startValue targetValue : ℚ) : Prop :=
  (0 < targetValue - startValue →
    (∃ p ∈ ts, startValue + (targetValue - startValue) * 0.9 ≤ p.value) ∨
      ∀ p ∈ ts, p.value < startValue + (targetValue - startValue) * 0.1) ∧
  (targetValue - startValue < 0 →
    (∃ p ∈ ts, p.value ≤ startValue + (targetValue - startValue) * 0.9) ∨
      ∀ p ∈ ts, startValue + (targetValue - startValue) * 0.1 < p.value)

lemma overshoot_nonneg (ts : List Sample) (s t : ℚ) : 0 ≤ calculateOvershoot ts s t := by
  simp only [calculateOvershoot]
  split_ifs with h1 h2 h3 h4 h5 h6
  · exact le_refl 0
  · exact le_refl 0
  · exact le_refl 0
  · exact le_refl 0
  · exact mul_nonneg (div_nonneg (by linarith [not_le.mp h5]) (abs_nonneg _)) (by norm_num)
  · exact le_refl 0
  · exact mul_nonneg (div_nonneg (by linarith [not_le.mp h6]) (abs_nonneg _)) (by norm_num)

lemma settling_nonneg (ts : List Sample) (s t tol : ℚ)
    (ht : ∀ p ∈ ts, 0 ≤ p.time) : 0 ≤ calculateSettlingTime ts s t tol := by
  simp only [calculateSettlingTime]
  split_ifs with h1 h2 <;> try norm_num
  cases hm : settleLoop (t - settlingBand s t tol) (t + settlingBand s t tol)
      ts.reverse none with
  | some r =>
    exact settleLoop_nonneg _ _ _ _ r
      (fun p hp => ht p (List.mem_reverse.mp hp)) (fun p hp => by simp at hp) hm
  | none =>
    cases ts with
    | nil => exact absurd rfl h1
    | cons x xs =>
      simp only [List.head?_cons, Option.map_some', Option.getD_some]
      exact ht x (List.mem_cons_self x xs)

lemma transition_nonneg (ts : List Sample) (s t : ℚ)
    (hsort : ts.Pairwise (fun a b => a.time ≤ b.time))
    (hcross : thresholdsCrossed ts s t) :
    0 ≤ calculateTransitionTime ts s t := by
  simp only [calculateTransitionTime]
  split_ifs with h1 h2 h3
  · exact le_refl 0
  · exact le_refl 0
  · -- rising
    rcases hcross.1 h3 with hex | hall
    · have hsome : (ts.find? fun p => decide (s + (t - s) * 0.9 ≤ p.value)).isSome := by
        rw [List.find?_isSome]
        obtain ⟨p, hp, hv⟩ := hex
        exact ⟨p, hp, by simpa using hv⟩
      obtain ⟨b, hb⟩ := Option.isSome_iff_exists.mp hsome
      obtain ⟨a, ha, hab⟩ :=
        find?_time_le (p := fun p => decide (s + (t - s) * 0.1 ≤ p.value))
          (q := fun p => decide (s + (t - s) * 0.9 ≤ p.value)) ts hsort
          (fun x hx => by
            have hx' : s + (t - s) * 0.9 ≤ x.value := of_decide_eq_true hx
            exact decide_eq_true (by linarith)) b hb
      rw [ha, hb]
      simp only [Option.map_some', Option.getD_some]
      linarith
    · have h10 : (ts.find? fun p => decide (s + (t - s) * 0.1 ≤ p.value)) = none := by
        rw [List.find?_eq_none]
        intro x hx
        simpa using not_le.mpr (hall x hx)
      have h90 : (ts.find? fun p => decide (s + (t - s) * 0.9 ≤ p.value)) = none := by
        rw [List.find?_eq_none]
        intro x hx
        have hx' := hall x hx
        simp only [decide_eq_true_eq, not_le]
        linarith
      rw [h10, h90]
      norm_num
  · -- falling: |delta| ≥ 0.01 and ¬(0 < delta) force delta < 0
    have hneg : t - s < 0 := by
      rcases lt_trichotomy (t - s) 0 with h | h | h
      · exact h
      · rw [h] at h2; norm_num at h2
      · exact absurd h h3
    rcases hcross.2 hneg with hex | hall
    · have hsome : (ts.find? fun p => decide (p.value ≤ s + (t - s) * 0.9)).isSome := by
        rw [List.find?_isSome]
        obtain ⟨p, hp, hv⟩ := hex
        exact ⟨p, hp, by simpa using hv⟩
      obtain ⟨b, hb⟩ := Option.isSome_iff_exists.mp hsome
      obtain ⟨a, ha, hab⟩ :=
        find?_time_le (p := fun p => decide (p.value ≤ s + (t - s) * 0.1))
          (q := fun p => decide (p.value ≤ s + (t - s) * 0.9)) ts hsort
          (fun x hx => by
            have hx' : x.value ≤ s + (t - s) * 0.9 := of_decide_eq_true hx
            exact decide_eq_true (by linarith)) b hb
      rw [ha, hb]
      simp only [Option.map_some', Option.getD_some]
      linarith
    · have h10 : (ts.find? fun p => decide (p.value ≤ s + (t - s) * 0.1)) = none := by
        rw [List.find?_eq_none]
        intro x hx
        simpa using not_le.mpr (hall x hx)
      have h90 : (ts.find? fun p => decide (p.value ≤ s + (t - s) * 0.9)) = none := by
        rw [List.find?_eq_none]
        intro x hx
        have hx' := hall x hx
        simp only [decide_eq_true_eq, not_le]
        linarith
      rw [h10, h90]
      norm_num

/-- C2 (corrected): `overshoot` is nonnegative for every series;
`settlingTime` is nonnegative whenever all sample times are; and
`transitionTime` is nonnegative whenever the times are nondecreasing and
the 90% threshold is crossed whenever the 10% threshold is.  (When only
the 10% threshold is crossed, `transitionTime = 0 − t10` can be
negative; see the counterexample.) -/
theorem control_metrics_nonneg (ts : List Sample) (t s : ℚ) :
    0 ≤ (calculateControlMetrics ts t (some s)).overshoot ∧
      ((∀ p ∈ ts, 0 ≤ p.time) → 0 ≤ (calculateControlMetrics ts t (some s)).settlingTime) ∧
      (ts.Pairwise (fun a b => a.time ≤ b.time) → thresholdsCrossed ts s t →
        0 ≤ (calculateControlMetrics ts t (some s)).transitionTime) :=
  ⟨overshoot_nonneg ts s t,
    fun ht => settling_nonneg ts s t 0.02 ht,
    fun hsort hcross => transition_nonneg ts s t hsort hcross⟩

/-- Counterexample to C2 as stated: with the series `[{time 1, value 5}]`,
start 0 and target 20, the 10% threshold (2) is crossed at time 1 but
the 90% threshold (18) never is, so its time falls back to 0 and
`transitionTime = 0 − 1 = −1 < 0`. -/
theorem control_metrics_nonneg_cex :
    (calculateControlMetrics [⟨1, 5⟩] 20 (some 0)).transitionTime < 0 := by
  norm_num [calculateControlMetrics, calculateTransitionTime, List.find?]

/-- Witness for the amended C2 on a rising two-sample series. -/
theorem control_metrics_nonneg_witness :
    (∀ p ∈ ([⟨0, 0⟩, ⟨1, 20⟩] : List Sample), 0 ≤ p.time) ∧
      0 ≤ (calculateControlMetrics [⟨0, 0⟩, ⟨1, 20⟩] 20 (some 0)).overshoot ∧
      0 ≤ (calculateControlMetrics [⟨0, 0⟩, ⟨1, 20⟩] 20 (some 0)).settlingTime ∧
      0 ≤ (calculateControlMetrics [⟨0, 0⟩, ⟨1, 20⟩] 20 (some 0)).transitionTime := by
  have h := control_metrics_nonneg [⟨0, 0⟩, ⟨1, 20⟩] 20 0
  have htimes : ∀ p ∈ ([⟨0, 0⟩, ⟨1, 20⟩] : List Sample), 0 ≤ p.time := by
    intro p hp
    fin_cases hp <;> norm_num
  have hsort : ([⟨0, 0⟩, ⟨1, 20⟩] : List Sample).Pairwise
      (fun a b => a.time ≤ b.time) := by
    norm_num [List.pairwise_cons]
  have hcross : thresholdsCrossed [⟨0, 0⟩, ⟨1, 20⟩] 0 20 := by
    unfold thresholdsCrossed
    refine ⟨fun _ => Or.inl ⟨⟨1, 20⟩, by simp, by norm_num⟩, fun hneg => ?_⟩
    norm_num at hneg
  exact ⟨htimes, h.1, h.2.1 htimes, h.2.2 hsort hcross⟩

/-- C10: when the very last sample lies outside the ±tolerance band (the
signal has not settled by the end of the series), `calculateSettlingTime`
returns that last sample's own timestamp — there is no sample after it,
so the `timeSeries[i+1]?.time ?? time` fallback yields its own time. -/
theorem settling_time_unsettled (ts : List Sample) (s t tol : ℚ) (p : Sample)
    (hlast : ts.getLast? = some p) (hdelta : (0.01 : ℚ) ≤ |t - s|)
    (hout : p.value < t - settlingBand s t tol ∨ t + settlingBand s t tol < p.value) :
    calculateSettlingTime ts s t tol = p.time := by
  have hne : ts ≠ [] := by
    intro h
    rw [h] at hlast
    simp at hlast
  have hsplit : ts.dropLast ++ [p] = ts :=
    List.dropLast_append_getLast? p (Option.mem_def.mpr hlast)
  have hrev : ts.reverse = p :: ts.dropLast.reverse := by
    conv_lhs => rw [← hsplit]
    rw [List.reverse_append]
    rfl
  simp only [calculateSettlingTime]
  rw [if_neg hne, if_neg (not_lt.mpr hdelta), hrev, settleLoop, if_pos hout]
  simp

/-- Witness for C10: the series `[{0,0}, {1,5}]` with target 20
(band [19.6, 20.4]) never settles; the settling time is the last
sample's own timestamp, 1. -/
theorem settling_time_unsettled_witness :
    ([⟨0, 0⟩, ⟨1, 5⟩] : List Sample).getLast? = some ⟨1, 5⟩ ∧
      (0.01 : ℚ) ≤ |20 - 0| ∧
      calculateSettlingTime [⟨0, 0⟩, ⟨1, 5⟩] 0 20 0.02 = 1 :=
  ⟨by simp, by norm_num,
    settling_time_unsettled [⟨0, 0⟩, ⟨1, 5⟩] 0 20 0.02 ⟨1, 5⟩ (by simp) (by norm_num)
      (Or.inl (by norm_num [settlingBand]))⟩

/-! ## Curve fitting engine
`src/workspace/lib/pump-calculations.ts`: least-squares quadratic fit via
Gaussian elimination with partial pivoting, and the system-curve linear
fit in transformed coordinates. -/

/-- A `{flow, head}` operating point. -/
structure OperatingPoint where
  flow : ℚ
  head : ℚ
deriving DecidableEq

/-- Quadratic fit result `{a, b, c, r2}`. -/
structure CurveFit where
  a : ℚ
  b : ℚ
  c : ℚ
  r2 : ℚ
deriving DecidableEq

/-- One row of the augmented 3×4 normal-equations matrix. -/
structure Row3 where
  c0 : ℚ
  c1 : ℚ
  c2 : ℚ
  rhs : ℚ
deriving DecidableEq

/-- A solution satisfies a row's linear equation. -/
def Row3.holds (r : Row3) (x : ℚ × ℚ × ℚ) : Prop :=
  r.c0 * x.1 + r.c1 * x.2.1 + r.c2 * x.2.2 = r.rhs

/-- Elimination step i = 1 (with its own partial pivot on column 1 already
applied by the caller) followed by the i = 2 pivot check and back
substitution.  `none` models the singular fallback of the source (a pivot
below 1e-10). -/
def elimTail (a0 u v : Row3) : Option (ℚ × ℚ × ℚ) :=
  if |u.c1| < 1e-10 then none
  else
    let g2 := v.c1 / u.c1
    let d2 : Row3 := ⟨v.c0, v.c1 - g2 * u.c1, v.c2 - g2 * u.c2, v.rhs - g2 * u.rhs⟩
    if |d2.c2| < 1e-10 then none
    else
      let x2 := d2.rhs / d2.c2
      let x1 := (u.rhs - u.c2 * x2) / u.c1
      let x0 := (a0.rhs - a0.c1 * x1 - a0.c2 * x2) / a0.c0
      some (x0, x1, x2)

/-- Elimination step i = 0 after the column-0 partial pivot: check the
pivot, eliminate column 0 from the two lower rows, partial-pivot column 1
and continue with `elimTail`. -/
def elimHead (a0 a1 a2 : Row3) : Option (ℚ × ℚ × ℚ) :=
  if |a0.c0| < 1e-10 then none
  else
    let f1 := a1.c0 / a0.c0
    let b1 : Row3 := ⟨a1.c0 - f1 * a0.c0, a1.c1 - f1 * a0.c1, a1.c2 - f1 * a0.c2,
      a1.rhs - f1 * a0.rhs⟩
    let f2 := a2.c0 / a0.c0
    let b2 : Row3 := ⟨a2.c0 - f2 * a0.c0, a2.c1 - f2 * a0.c1, a2.c2 - f2 * a0.c2,
      a2.rhs - f2 * a0.rhs⟩
    if |b2.c1| > |b1.c1| then elimTail a0 b2 b1 else elimTail a0 b1 b2

/-- The 3×3 Gaussian elimination with partial pivoting of
`fitQuadraticCurve`; `none` exactly when some pivot magnitude falls below
1e-10 (the singular fallback). -/
def gaussSolve3 (r0 r1 r2 : Row3) : Option (ℚ × ℚ × ℚ) :=
  if |r1.c0| > |r0.c0| then
    if |r2.c0| > |r1.c0| then elimHead r2 r1 r0 else elimHead r1 r0 r2
  else
    if |r2.c0| > |r0.c0| then elimHead r2 r1 r0 else elimHead r0 r1 r2

/-- The augmented normal-equations rows built from the power sums
Σ1, ΣQ, ΣQ², ΣQ³, ΣQ⁴, ΣH, ΣQH, ΣQ²H. -/
def normalRows (points : List OperatingPoint) : Row3 × Row3 × Row3 :=
  let s1 := (points.map fun p => p.flow).sum
  let s2 := (points.map fun p => p.flow * p.flow).sum
  let s3 := (points.map fun p => p.flow * p.flow * p.flow).sum
  let s4 := (points.map fun p => p.flow * p.flow * p.flow * p.flow).sum
  let t0 := (points.map fun p => p.head).sum
  let t1 := (points.map fun p => p.flow * p.head).sum
  let t2 := (points.map fun p => p.flow * p.flow * p.head).sum
  (⟨s4, s3, s2, t2⟩, ⟨s3, s2, s1, t1⟩, ⟨s2, s1, (points.length : ℚ), t0⟩)

/-- `fitQuadraticCurve`: degenerate flat model for < 3 points; otherwise
solve the normal equations by Gaussian elimination (mean-head fallback on
a small pivot) and report R² (0 when SS_tot = 0). -/
def fitQuadraticCurve (points : List OperatingPoint) : CurveFit :=
  if points.length < 3 then
    { a := 0, b := 0, c := ((points.head?).map OperatingPoint.head).getD 0, r2 := 0 }
  else
    let rows := normalRows points
    let n : ℚ := (points.length : ℚ)
    let t0 := (points.map fun p => p.head).sum
    match gaussSolve3 rows.1 rows.2.1 rows.2.2 with
    | none => { a := 0, b := 0, c := t0 / n, r2 := 0 }
    | some (a, b, c) =>
      let meanY := t0 / n
      let ssTot := (points.map fun p => (p.head - meanY) ^ 2).sum
      let ssRes := (points.map fun p => (p.head - (a * p.flow * p.flow + b * p.flow + c)) ^ 2).sum
      { a := a, b := b, c := c, r2 := if ssTot > 0 then 1 - ssRes / ssTot else 0 }

lemma abs_lt_bound_ne_zero {y : ℚ} (h : ¬|y| < 1e-10) : y ≠ 0 := by
  intro hz
  rw [hz] at h
  norm_num at h

lemma elimTail_correct (a0 u v : Row3) (x : ℚ × ℚ × ℚ)
    (ha0 : a0.c0 ≠ 0) (hu0 : u.c0 = 0) (hv0 : v.c0 = 0)
    (h : elimTail a0 u v = some x) :
    a0.holds x ∧ u.holds x ∧ v.holds x := by
  simp only [elimTail] at h
  split_ifs at h with h1 h2
  have hu1 : u.c1 ≠ 0 := abs_lt_bound_ne_zero h1
  have hd2 : v.c2 - v.c1 / u.c1 * u.c2 ≠ 0 := abs_lt_bound_ne_zero h2
  have hd2' : v.c2 * u.c1 - v.c1 * u.c2 ≠ 0 := by
    intro hz
    apply hd2
    have he : v.c2 - v.c1 / u.c1 * u.c2 = (v.c2 * u.c1 - v.c1 * u.c2) / u.c1 := by
      field_simp
    rw [he, hz, zero_div]
  rw [Option.some.injEq] at h
  subst h
  refine ⟨?_, ?_, ?_⟩ <;> simp only [Row3.holds, hu0, hv0] <;> field_simp <;> ring

lemma elimHead_correct (a0 a1 a2 : Row3) (x : ℚ × ℚ × ℚ)
    (h : elimHead a0 a1 a2 = some x) :
    a0.holds x ∧ a1.holds x ∧ a2.holds x := by
  simp only [elimHead] at h
  split_ifs at h with h0 hp
  · -- pivot swap at step 1: rows (b2, b1)
    have ha0 : a0.c0 ≠ 0 := abs_lt_bound_ne_zero h0
    have hb1 : a1.c0 - a1.c0 / a0.c0 * a0.c0 = 0 := by field_simp
    have hb2 : a2.c0 - a2.c0 / a0.c0 * a0.c0 = 0 := by field_simp
    obtain ⟨hh0, hh2, hh1⟩ := elimTail_correct _ _ _ x ha0 hb2 hb1 h
    simp only [Row3.holds] at hh0 hh1 hh2 ⊢
    refine ⟨hh0, ?_, ?_⟩
    · linear_combination hh1 + a1.c0 / a0.c0 * hh0
    · linear_combination hh2 + a2.c0 / a0.c0 * hh0
  · -- no swap at step 1: rows (b1, b2)
    have ha0 : a0.c0 ≠ 0 := abs_lt_bound_ne_zero h0
    have hb1 : a1.c0 - a1.c0 / a0.c0 * a0.c0 = 0 := by field_simp
    have hb2 : a2.c0 - a2.c0 / a0.c0 * a0.c0 = 0 := by field_simp
    obtain ⟨hh0, hh1, hh2⟩ := elimTail_correct _ _ _ x ha0 hb1 hb2 h
    simp only [Row3.holds] at hh0 hh1 hh2 ⊢
    refine ⟨hh0, ?_, ?_⟩
    · linear_combination hh1 + a1.c0 / a0.c0 * hh0
    · linear_combination hh2 + a2.c0 / a0.c0 * hh0

lemma gaussSolve3_correct (r0 r1 r2 : Row3) (x : ℚ × ℚ × ℚ)
    (h : gaussSolve3 r0 r1 r2 = some x) :
    r0.holds x ∧ r1.holds x ∧ r2.holds x := by
  simp only [gaussSolve3] at h
  split_ifs at h
  · obtain ⟨ha, hb, hc⟩ := elimHead_correct _ _ _ x h
    exact ⟨hc, hb, ha⟩
  · obtain ⟨ha, hb, hc⟩ := elimHead_correct _ _ _ x h
    exact ⟨hb, ha, hc⟩
  · obtain ⟨ha, hb, hc⟩ := elimHead_correct _ _ _ x h
    exact ⟨hc, hb, ha⟩
  · exact elimHead_correct _ _ _ x h

/-- Reduction of `fitQuadraticCurve` on the success path of the
elimination. -/
lemma fitQuadraticCurve_of_gauss (pts : List OperatingPoint) (a b c : ℚ)
    (hlen : ¬pts.length < 3)
    (hs : gaussSolve3 (normalRows pts).1 (normalRows pts).2.1 (normalRows pts).2.2 =
      some (a, b, c)) :
    fitQuadraticCurve pts =
      { a := a, b := b, c := c,
        r2 :=
          if (pts.map fun p =>
                (p.head - (pts.map fun p => p.head).sum / (pts.length : ℚ)) ^ 2).sum > 0 then
            1 - (pts.map fun p =>
                  (p.head - (a * p.flow * p.flow + b * p.flow + c)) ^ 2).sum /
                (pts.map fun p =>
                  (p.head - (pts.map fun p => p.head).sum / (pts.length : ℚ)) ^ 2).sum
          else 0 } := by
  unfold fitQuadraticCurve
  rw [if_neg hlen]
  simp only
  rw [hs]

/-- C5: on 3 points with pairwise distinct flows, heads not all equal,
whose normal-equations elimination keeps all pivots above the 1e-10
threshold, `fitQuadraticCurve` returns a quadratic passing exactly
through all 3 points and reports r2 = 1. -/
theorem fit_quadratic_exact (x0 y0 x1 y1 x2 y2 : ℚ)
    (hd01 : x0 ≠ x1) (hd02 : x0 ≠ x2) (hd12 : x1 ≠ x2)
    (hy : ¬(y0 = y1 ∧ y1 = y2))
    (hsolv : (gaussSolve3 (normalRows [⟨x0, y0⟩, ⟨x1, y1⟩, ⟨x2, y2⟩]).1
        (normalRows [⟨x0, y0⟩, ⟨x1, y1⟩, ⟨x2, y2⟩]).2.1
        (normalRows [⟨x0, y0⟩, ⟨x1, y1⟩, ⟨x2, y2⟩]).2.2).isSome) :
    (fitQuadraticCurve [⟨x0, y0⟩, ⟨x1, y1⟩, ⟨x2, y2⟩]).a * x0 * x0 +
        (fitQuadraticCurve [⟨x0, y0⟩, ⟨x1, y1⟩, ⟨x2, y2⟩]).b * x0 +
        (fitQuadraticCurve [⟨x0, y0⟩, ⟨x1, y1⟩, ⟨x2, y2⟩]).c = y0 ∧
      (fitQuadraticCurve [⟨x0, y0⟩, ⟨x1, y1⟩, ⟨x2, y2⟩]).a * x1 * x1 +
          (fitQuadraticCurve [⟨x0, y0⟩, ⟨x1, y1⟩, ⟨x2, y2⟩]).b * x1 +
          (fitQuadraticCurve [⟨x0, y0⟩, ⟨x1, y1⟩, ⟨x2, y2⟩]).c = y1 ∧
        (fitQuadraticCurve [⟨x0, y0⟩, ⟨x1, y1⟩, ⟨x2, y2⟩]).a * x2 * x2 +
            (fitQuadraticCurve [⟨x0, y0⟩, ⟨x1, y1⟩, ⟨x2, y2⟩]).b * x2 +
            (fitQuadraticCurve [⟨x0, y0⟩, ⟨x1, y1⟩, ⟨x2, y2⟩]).c = y2 ∧
          (fitQuadraticCurve [⟨x0, y0⟩, ⟨x1, y1⟩, ⟨x2, y2⟩]).r2 = 1 := by
  obtain ⟨⟨a, b, c⟩, hs⟩ := Option.isSome_iff_exists.mp hsolv
  have hrows := gaussSolve3_correct _ _ _ _ hs
  simp only [normalRows, Row3.holds, List.map_cons, List.map_nil, List.sum_cons,
    List.sum_nil, List.length_cons, List.length_nil] at hrows
  obtain ⟨hE2, hE1, hE0⟩ := hrows
  have hres := fitQuadraticCurve_of_gauss [⟨x0, y0⟩, ⟨x1, y1⟩, ⟨x2, y2⟩] a b c
    (by norm_num) hs
  simp only [List.map_cons, List.map_nil, List.sum_cons, List.sum_nil,
    List.length_cons, List.length_nil] at hres
  have hc3 : ((0 + 1 + 1 + 1 : ℕ) : ℚ) = 3 := by norm_num
  rw [hc3] at hE0 hres
  have he0 : a * x0 * x0 + b * x0 + c = y0 := by
    have hk : (a * x0 * x0 + b * x0 + c - y0) * ((x0 - x1) * (x0 - x2)) = 0 := by
      linear_combination hE2 - (x1 + x2) * hE1 + x1 * x2 * hE0
    rcases mul_eq_zero.mp hk with h | h
    · linarith
    · exact absurd h (mul_ne_zero (sub_ne_zero.mpr hd01) (sub_ne_zero.mpr hd02))
  have he1 : a * x1 * x1 + b * x1 + c = y1 := by
    have hk : (a * x1 * x1 + b * x1 + c - y1) * ((x1 - x0) * (x1 - x2)) = 0 := by
      linear_combination hE2 - (x0 + x2) * hE1 + x0 * x2 * hE0
    rcases mul_eq_zero.mp hk with h | h
    · linarith
    · exact absurd h
        (mul_ne_zero (sub_ne_zero.mpr hd01.symm) (sub_ne_zero.mpr hd12))
  have he2 : a * x2 * x2 + b * x2 + c = y2 := by
    have hk : (a * x2 * x2 + b * x2 + c - y2) * ((x2 - x0) * (x2 - x1)) = 0 := by
      linear_combination hE2 - (x0 + x1) * hE1 + x0 * x1 * hE0
    rcases mul_eq_zero.mp hk with h | h
    · linarith
    · exact absurd h
        (mul_ne_zero (sub_ne_zero.mpr hd02.symm) (sub_ne_zero.mpr hd12.symm))
  have hpos : (y0 - (y0 + (y1 + (y2 + 0))) / 3) ^ 2 +
      ((y1 - (y0 + (y1 + (y2 + 0))) / 3) ^ 2 +
        ((y2 - (y0 + (y1 + (y2 + 0))) / 3) ^ 2 + 0)) > 0 := by
    by_contra hnp
    push_neg at hnp
    have hq0 := sq_nonneg (y0 - (y0 + (y1 + (y2 + 0))) / 3)
    have hq1 := sq_nonneg (y1 - (y0 + (y1 + (y2 + 0))) / 3)
    have hq2 := sq_nonneg (y2 - (y0 + (y1 + (y2 + 0))) / 3)
    have hz0 : y0 - (y0 + (y1 + (y2 + 0))) / 3 = 0 :=
      sq_eq_zero_iff.mp (by linarith)
    have hz1 : y1 - (y0 + (y1 + (y2 + 0))) / 3 = 0 :=
      sq_eq_zero_iff.mp (by linarith)
    have hz2 : y2 - (y0 + (y1 + (y2 + 0))) / 3 = 0 :=
      sq_eq_zero_iff.mp (by linarith)
    exact hy ⟨by linarith, by linarith⟩
  have hzero : (y0 - (a * x0 * x0 + b * x0 + c)) ^ 2 +
      ((y1 - (a * x1 * x1 + b * x1 + c)) ^ 2 +
        ((y2 - (a * x2 * x2 + b * x2 + c)) ^ 2 + 0)) = 0 := by
    rw [he0, he1, he2]
    ring
  rw [if_pos hpos, hzero, zero_div, sub_zero] at hres
  rw [hres]
  exact ⟨he0, he1, he2, rfl⟩

/-- C7: for fewer than 3 points `fitQuadraticCurve` (total, never throws)
returns the degenerate flat model `{a: 0, b: 0, c: first point's head or
0 when empty, r2: 0}`. -/
theorem fit_quadratic_degenerate (points : List OperatingPoint) (h : points.length < 3) :
    fitQuadraticCurve points =
      { a := 0, b := 0, c := ((points.head?).map OperatingPoint.head).getD 0, r2 := 0 } := by
  unfold fitQuadraticCurve
  rw [if_pos h]

/-- Witness for C5 on the points (0,10), (1,8), (2,4): the fitted
quadratic −Q² − Q + 10 passes through all three and r2 = 1. -/
theorem fit_quadratic_exact_witness :
    (gaussSolve3 (normalRows [⟨0, 10⟩, ⟨1, 8⟩, ⟨2, 4⟩]).1
        (normalRows [⟨0, 10⟩, ⟨1, 8⟩, ⟨2, 4⟩]).2.1
        (normalRows [⟨0, 10⟩, ⟨1, 8⟩, ⟨2, 4⟩]).2.2).isSome ∧
      (fitQuadraticCurve [⟨0, 10⟩, ⟨1, 8⟩, ⟨2, 4⟩]).r2 = 1 := by
  have hsolv : (gaussSolve3 (normalRows [⟨0, 10⟩, ⟨1, 8⟩, ⟨2, 4⟩]).1
      (normalRows [⟨0, 10⟩, ⟨1, 8⟩, ⟨2, 4⟩]).2.1
      (normalRows [⟨0, 10⟩, ⟨1, 8⟩, ⟨2, 4⟩]).2.2).isSome := by
    norm_num [normalRows, gaussSolve3, elimHead, elimTail, abs_of_nonneg]
  exact ⟨hsolv,
    (fit_quadratic_exact 0 10 1 8 2 4 (by norm_num) (by norm_num) (by norm_num)
      (by norm_num) hsolv).2.2.2⟩

/-- Witness for C7 on the empty list and a 2-point list. -/
theorem fit_quadratic_degenerate_witness :
    ([] : List OperatingPoint).length < 3 ∧
      fitQuadraticCurve [] = { a := 0, b := 0, c := 0, r2 := 0 } ∧
      fitQuadraticCurve [⟨1, 9⟩, ⟨2, 7⟩] = { a := 0, b := 0, c := 9, r2 := 0 } :=
  ⟨by norm_num, fit_quadratic_degenerate [] (by norm_num),
    fit_quadratic_degenerate [⟨1, 9⟩, ⟨2, 7⟩] (by norm_num)⟩

/-- System-curve fit result `{staticHead, resistanceCoeff, r2}` (the
presentation-only `formula` string of the source is omitted). -/
structure SystemCurve where
  staticHead : ℚ
  resistanceCoeff : ℚ
  r2 : ℚ
deriving DecidableEq

/-- The linear regression H = staticHead + k·Q² of `estimateSystemCurve`
over the already-filtered valid points (closed-form 2-parameter least
squares in X = Q²; mean-head fallback when the denominator magnitude is
below 1e-10; results rounded to 2/4/3 decimals). -/
def systemCurveFit (validPoints : List OperatingPoint) : SystemCurve :=
  let n : ℚ := (validPoints.length : ℚ)
  let sumX := (validPoints.map fun p => p.flow * p.flow).sum
  let sumY := (validPoints.map fun p => p.head).sum
  let sumXY := (validPoints.map fun p => p.flow * p.flow * p.head).sum
  let sumX2 := (validPoints.map fun p => p.flow * p.flow * (p.flow * p.flow)).sum
  let denominator := n * sumX2 - sumX * sumX
  if |denominator| < 1e-10 then { staticHead := sumY / n, resistanceCoeff := 0, r2 := 0 }
  else
    let k := (n * sumXY - sumX * sumY) / denominator
    let staticHead := (sumY - k * sumX) / n
    let meanY := sumY / n
    let ssTot := (validPoints.map fun p => (p.head - meanY) ^ 2).sum
    let ssRes := (validPoints.map fun p =>
      (p.head - (staticHead + k * (p.flow * p.flow))) ^ 2).sum
    let r2 : ℚ := if ssTot > 0 then 1 - ssRes / ssTot else 0
    { staticHead := round2 staticHead
      resistanceCoeff := (jsRound (k * 10000) : ℚ) / 10000
      r2 := (jsRound (r2 * 1000) : ℚ) / 1000 }

/-- `estimateSystemCurve`: early degenerate return for fewer than 3 input
points; then points with flow = 0 are excluded, with a first-point-head
fallback when fewer than 2 valid points remain; otherwise the regression
runs on the valid points. -/
def estimateSystemCurve (dataPoints : List OperatingPoint) : SystemCurve :=
  if dataPoints.length < 3 then { staticHead := 0, resistanceCoeff := 0.1, r2 := 0 }
  else
    let validPoints := dataPoints.filter fun p => decide (0 < p.flow)
    if validPoints.length < 2 then
      { staticHead := ((dataPoints.head?).map OperatingPoint.head).getD 0
        resistanceCoeff := 0.1
        r2 := 0 }
    else systemCurveFit validPoints

/-- C3 (corrected): `estimateSystemCurve` first short-circuits on fewer
than 3 *input* points with a zero-static-head fallback; only then does it
exclude flow = 0 points; with fewer than 2 valid points left it falls
back to the *first input point's* head (not the mean head); the
regression runs only when the input has ≥ 3 points of which ≥ 2 have
nonzero flow. -/
theorem system_curve_fallbacks (dataPoints : List OperatingPoint) :
    (dataPoints.length < 3 →
      estimateSystemCurve dataPoints = { staticHead := 0, resistanceCoeff := 0.1, r2 := 0 }) ∧
      (3 ≤ dataPoints.length →
        (dataPoints.filter fun p => decide (0 < p.flow)).length < 2 →
        estimateSystemCurve dataPoints =
          { staticHead := ((dataPoints.head?).map OperatingPoint.head).getD 0
            resistanceCoeff := 0.1, r2 := 0 }) ∧
      (3 ≤ dataPoints.length →
        2 ≤ (dataPoints.filter fun p => decide (0 < p.flow)).length →
        estimateSystemCurve dataPoints =
          systemCurveFit (dataPoints.filter fun p => decide (0 < p.flow))) := by
  refine ⟨fun h => ?_, fun h3 h2 => ?_, fun h3 h2 => ?_⟩
  · unfold estimateSystemCurve
    rw [if_pos h]
  · unfold estimateSystemCurve
    rw [if_neg (not_lt.mpr h3)]
    simp only
    rw [if_pos h2]
  · unfold estimateSystemCurve
    rw [if_neg (not_lt.mpr h3)]
    simp only
    rw [if_neg (not_lt.mpr h2)]

/-- Counterexample to C3 as stated: the input `[(1,5), (2,8)]` has 2
valid nonzero-flow points, yet the fit is *not* attempted — the
fewer-than-3-inputs guard returns the degenerate fallback first, and that
fallback differs from the fit (which would be H = 4 + 1·Q², r2 = 1). -/
theorem system_curve_two_points_cex :
    (([⟨1, 5⟩, ⟨2, 8⟩] : List OperatingPoint).filter
        (fun p => decide (0 < p.flow))).length = 2 ∧
      estimateSystemCurve [⟨1, 5⟩, ⟨2, 8⟩] =
        { staticHead := 0, resistanceCoeff := 0.1, r2 := 0 } ∧
      systemCurveFit (([⟨1, 5⟩, ⟨2, 8⟩] : List OperatingPoint).filter
          (fun p => decide (0 < p.flow))) =
        { staticHead := 4, resistanceCoeff := 1, r2 := 1 } := by
  refine ⟨by norm_num [List.filter], ?_, ?_⟩
  · unfold estimateSystemCurve
    rw [if_pos (by norm_num)]
  · norm_num [List.filter, systemCurveFit, abs_of_nonneg, round2, jsRound]

/-- Witness for the amended C3: each of the three regimes at a concrete
input. -/
theorem system_curve_fallbacks_witness :
    estimateSystemCurve [⟨1, 5⟩] = { staticHead := 0, resistanceCoeff := 0.1, r2 := 0 } ∧
      estimateSystemCurve [⟨0, 7⟩, ⟨0, 9⟩, ⟨0, 11⟩] =
        { staticHead := 7, resistanceCoeff := 0.1, r2 := 0 } ∧
      estimateSystemCurve [⟨0, 10⟩, ⟨1, 5⟩, ⟨2, 8⟩] = systemCurveFit [⟨1, 5⟩, ⟨2, 8⟩] := by
  refine ⟨(system_curve_fallbacks [⟨1, 5⟩]).1 (by norm_num), ?_, ?_⟩
  · have h := (system_curve_fallbacks [⟨0, 7⟩, ⟨0, 9⟩, ⟨0, 11⟩]).2.1 (by norm_num)
      (by norm_num [List.filter])
    simpa using h
  · have h := (system_curve_fallbacks [⟨0, 10⟩, ⟨1, 5⟩, ⟨2, 8⟩]).2.2 (by norm_num)
      (by norm_num [List.filter])
    rw [h]
    norm_num [List.filter]

/-! ## Transient response engine
`src/workspace/lib/simulation.ts` with the `SIMULATION` constants of
`src/unnamed/part_011` (the generation whose valve table matches
`lib/constants.ts`; its `PHYSICS.RATED_FLOW` is 25). -/

def TIME_CONSTANT_DELTA : ℚ := 0.4
def TIME_CONSTANT_TARGET : ℚ := 0.15
def OVERSHOOT_DELTA : ℚ := 0.25
def OVERSHOOT_TARGET : ℚ := 0.2
def PHYSICS_RATED_FLOW : ℚ := 25
def DEFAULT_DURATION : ℚ := 30
def STEP_SIZE : ℚ := 0.1

/-- `SimulationMode`: `'fast' | 'stable' | 'smooth'`. -/
inductive SimulationMode
  | fast
  | stable
  | smooth
deriving DecidableEq

/-- Mode → base time constant (`SIMULATION.TIME_CONSTANT`). -/
def TIME_CONSTANT : SimulationMode → ℚ
  | .fast => 1.5
  | .stable => 3.0
  | .smooth => 5.0

/-- Mode → base overshoot % (`SIMULATION.OVERSHOOT`). -/
def OVERSHOOT : SimulationMode → ℚ
  | .fast => 15
  | .stable => 5
  | .smooth => 0

/-- `calculateDynamicTimeConstant`:
τ_base × (1 + k₁·|Δ|/Q_rated) × (1 + k₂·max(start,target)/Q_rated). -/
def calculateDynamicTimeConstant (baseTimeConstant startFlow targetFlow : ℚ) : ℚ :=
  let delta := |targetFlow - startFlow|
  let targetRatio := max startFlow targetFlow / PHYSICS_RATED_FLOW
  let deltaFactor := 1 + TIME_CONSTANT_DELTA * (delta / PHYSICS_RATED_FLOW)
  let targetFactor := 1 + TIME_CONSTANT_TARGET * targetRatio
  baseTimeConstant * deltaFactor * targetFactor

/-- `calculateDynamicOvershoot`: 0 for nonpositive base overshoot
(critically damped); otherwise
min(%OS_base × (1 + k₃·|Δ|/Q_rated) × (0.8 + k₄·target/Q_rated), 30). -/
def calculateDynamicOvershoot (baseOvershoot startFlow targetFlow : ℚ) : ℚ :=
  if baseOvershoot ≤ 0 then 0
  else
    let delta := |targetFlow - startFlow|
    let targetRatio := targetFlow / PHYSICS_RATED_FLOW
    let deltaFactor := 1 + OVERSHOOT_DELTA * (delta / PHYSICS_RATED_FLOW)
    let targetFactor := 0.8 + OVERSHOOT_TARGET * targetRatio
    min (baseOvershoot * deltaFactor * targetFactor) 30

/-- One `{time, flow, power}` sample of the simulated series. -/
structure TimeSeriesSample where
  time : ℚ
  flow : ℚ
  power : ℚ
deriving DecidableEq

/-- The `{mode, timeConstant, overshoot, timeSeries}` result of
`simulateTransient`. -/
structure TransientResult where
  mode : SimulationMode
  timeConstant : ℚ
  overshoot : ℚ
  timeSeries : List TimeSeriesSample
deriving DecidableEq

/-- Number of iterations of `for (let t = 0; t <= duration; t += stepSize)`
under exact arithmetic: `⌊duration/stepSize⌋ + 1` when `stepSize > 0` and
`duration ≥ 0`.  (For `stepSize ≤ 0` and `duration ≥ 0` the source loop
does not terminate; no claim concerns that regime and it is modelled as
an empty iteration.) -/
def stepCount (duration stepSize : ℚ) : ℕ :=
  if 0 < stepSize ∧ 0 ≤ duration then ⌊duration / stepSize⌋.toNat + 1 else 0

/-- The loop's successive `t` values: `k * stepSize` for
`k = 0, …, ⌊duration/stepSize⌋`. -/
def sampleTimes (duration stepSize : ℚ) : List ℚ :=
  (List.range (stepCount duration stepSize)).map fun k : ℕ => (k : ℚ) * stepSize

/-- `stepCount` is exactly the loop's iteration count: under exact
arithmetic, iteration `k` runs if and only if its `t = k·stepSize`
satisfies the guard `t ≤ duration`. -/
lemma stepCount_spec (duration stepSize : ℚ) (hs : 0 < stepSize) (hd : 0 ≤ duration)
    (k : ℕ) : k < stepCount duration stepSize ↔ (k : ℚ) * stepSize ≤ duration := by
  unfold stepCount
  rw [if_pos ⟨hs, hd⟩]
  have hfl : (0 : ℤ) ≤ ⌊duration / stepSize⌋ := Int.floor_nonneg.mpr (div_nonneg hd hs.le)
  rw [Nat.lt_succ_iff]
  constructor
  · intro h
    have h3 : (k : ℤ) ≤ ⌊duration / stepSize⌋ := by omega
    have h2 : ((k : ℤ) : ℚ) ≤ (⌊duration / stepSize⌋ : ℚ) := by exact_mod_cast h3
    have h4 : (k : ℚ) ≤ duration / stepSize := le_trans (by exact_mod_cast h2) (Int.floor_le _)
    calc (k : ℚ) * stepSize ≤ duration / stepSize * stepSize :=
          mul_le_mul_of_nonneg_right h4 hs.le
      _ = duration := div_mul_cancel₀ duration hs.ne'
  · intro h
    have h2 : (k : ℚ) ≤ duration / stepSize := (le_div_iff₀ hs).mpr h
    have h3 : (k : ℤ) ≤ ⌊duration / stepSize⌋ := Int.le_floor.mpr (by exact_mod_cast h2)
    omega

/-- `simulateTransient`.  The function `so` abstracts the value
`secondOrderResponse(targetFlow, startFlow, timeConstant, overshoot, t)`
of the source at each sample time `t`: its closed form uses exp/sin/atan2,
which have no computable ℚ counterpart; every claim proved below holds
for all `so`, i.e. irrespective of the response values.  The power column
uses the generation-1 `calculateInverterPower` at its default arguments,
as `simulation.ts` does. -/
def simulateTransient (so : ℚ → ℚ) (startFlow targetFlow : ℚ) (mode : SimulationMode)
    (duration stepSize : ℚ) : TransientResult :=
  let timeConstant := calculateDynamicTimeConstant (TIME_CONSTANT mode) startFlow targetFlow
  let overshoot := calculateDynamicOvershoot (OVERSHOOT mode) startFlow targetFlow
  if |startFlow - targetFlow| < 0.1 then
    { mode := mode
      timeConstant := timeConstant
      overshoot := 0
      timeSeries := (sampleTimes duration stepSize).map fun t =>
        { time := round2 t
          flow := round2 targetFlow
          power := round2 (Gen1.calculateInverterPower (max 0 targetFlow)
            Gen1.RATED_FLOW Gen1.FIXED_LOSS_AI) } }
  else
    { mode := mode
      timeConstant := round2 timeConstant
      overshoot := round1 overshoot
      timeSeries := (sampleTimes duration stepSize).map fun t =>
        { time := round2 t
          flow := round2 (so t)
          power := round2 (Gen1.calculateInverterPower (max 0 (so t))
            Gen1.RATED_FLOW Gen1.FIXED_LOSS_AI) } }

/-- C9: `calculateDynamicOvershoot` never exceeds 30, and a nonpositive
base overshoot (the smooth mode) always yields exactly 0. -/
theorem dynamic_overshoot_capped (baseOvershoot startFlow targetFlow : ℚ) :
    calculateDynamicOvershoot baseOvershoot startFlow targetFlow ≤ 30 ∧
      (baseOvershoot ≤ 0 →
        calculateDynamicOvershoot baseOvershoot startFlow targetFlow = 0) := by
  unfold calculateDynamicOvershoot
  constructor
  · split_ifs with h
    · norm_num
    · exact min_le_right _ _
  · intro h
    rw [if_pos h]

/-- Witness for C9: the smooth mode's base overshoot 0 stays 0, and a
large base overshoot at a large step stays capped at 30. -/
theorem dynamic_overshoot_capped_witness :
    calculateDynamicOvershoot 0 5 20 = 0 ∧ calculateDynamicOvershoot 100 0 25 ≤ 30 :=
  ⟨(dynamic_overshoot_capped 0 5 20).2 (le_refl 0),
    (dynamic_overshoot_capped 100 0 25).1⟩

/-- C8: when |startFlow − targetFlow| < 0.1 the simulation reports
overshoot 0 and emits a flat line: every sample's flow is the target
rounded to 2 decimals, for any mode, duration, step size and response. -/
theorem flat_line_simulation (so : ℚ → ℚ) (startFlow targetFlow : ℚ)
    (mode : SimulationMode) (duration stepSize : ℚ)
    (h : |startFlow - targetFlow| < 0.1) :
    (simulateTransient so startFlow targetFlow mode duration stepSize).overshoot = 0 ∧
      ∀ s ∈ (simulateTransient so startFlow targetFlow mode duration stepSize).timeSeries,
        s.flow = round2 targetFlow := by
  simp only [simulateTransient]
  rw [if_pos h]
  refine ⟨rfl, fun s hs => ?_⟩
  simp only [List.mem_map] at hs
  obtain ⟨t, _, ht⟩ := hs
  rw [← ht]

/-- Witness for C8 with startFlow = targetFlow = 10, duration 5. -/
theorem flat_line_simulation_witness :
    |(10 : ℚ) - 10| < 0.1 ∧
      (simulateTransient (fun _ => 0) 10 10 SimulationMode.stable 5 STEP_SIZE).overshoot = 0 ∧
      ∀ s ∈ (simulateTransient (fun _ => 0) 10 10 SimulationMode.stable 5
          STEP_SIZE).timeSeries, s.flow = round2 10 :=
  ⟨by norm_num,
    (flat_line_simulation (fun _ => 0) 10 10 SimulationMode.stable 5 STEP_SIZE
      (by norm_num)).1,
    (flat_line_simulation (fun _ => 0) 10 10 SimulationMode.stable 5 STEP_SIZE
      (by norm_num)).2⟩

lemma jsRound_lt (x y : ℚ) (h : x + 1 ≤ y) : jsRound x < jsRound y := by
  unfold jsRound
  have h2 : ⌊x + 1/2⌋ + 1 ≤ ⌊y + 1/2⌋ := by
    have he : ⌊x + 1/2⌋ + 1 = ⌊x + 1/2 + 1⌋ := (Int.floor_add_one _).symm
    rw [he]
    exact Int.floor_le_floor (by linarith)
  omega

lemma round2_strict_mono (a b : ℚ) (h : a + 0.01 ≤ b) : round2 a < round2 b := by
  unfold round2
  have h1 : jsRound (a * 100) < jsRound (b * 100) := jsRound_lt _ _ (by linarith)
  have h2 : ((jsRound (a * 100) : ℤ) : ℚ) < ((jsRound (b * 100) : ℤ) : ℚ) :=
    Int.cast_lt.mpr h1
  have h100 : (0 : ℚ) < 100 := by norm_num
  exact div_lt_div_of_pos_right h2 h100

/-- Evaluation helper: `round2 q = z/100` when `z` is the rounded value of
`100q`. -/
lemma round2_eq (q : ℚ) (z : ℤ)
    (h : (z : ℚ) ≤ q * 100 + 1 / 2 ∧ q * 100 + 1 / 2 < z + 1) :
    round2 q = (z : ℚ) / 100 := by
  unfold round2 jsRound
  rw [Int.floor_eq_iff.mpr h]

/-- Both branches of `simulateTransient` stamp the same time column:
the loop grid rounded to 2 decimals. -/
lemma transient_times_eq (so : ℚ → ℚ) (startFlow targetFlow : ℚ) (mode : SimulationMode)
    (duration stepSize : ℚ) :
    (simulateTransient so startFlow targetFlow mode duration stepSize).timeSeries.map
      TimeSeriesSample.time = (sampleTimes duration stepSize).map round2 := by
  simp only [simulateTransient]
  split_ifs <;> simp [List.map_map]

/-- Counterexample to C4 as stated: with duration 0.25 and step size 0.1
the series' times are [0, 0.1, 0.2] — the right endpoint 0.25 is *not*
included (the loop stops at the largest multiple of the step ≤ the
duration). -/
theorem transient_grid_cex :
    (0 : ℚ) < 0.25 ∧ (0 : ℚ) < 0.1 ∧
      ((simulateTransient (fun _ => 0) 0 0 SimulationMode.stable 0.25
          0.1).timeSeries.map TimeSeriesSample.time) = [0, 0.1, 0.2] ∧
      (0.25 : ℚ) ∉
        ((simulateTransient (fun _ => 0) 0 0 SimulationMode.stable 0.25
          0.1).timeSeries.map TimeSeriesSample.time) := by
  have hf : ⌊((0.25 : ℚ) / 0.1)⌋ = 2 := Int.floor_eq_iff.mpr (by norm_num)
  have hsc : stepCount 0.25 0.1 = 3 := by
    unfold stepCount
    rw [if_pos (by norm_num : (0 : ℚ) < 0.1 ∧ (0 : ℚ) ≤ 0.25), hf]
    rfl
  have hlist : ((simulateTransient (fun _ => 0) 0 0 SimulationMode.stable 0.25
      0.1).timeSeries.map TimeSeriesSample.time) = [0, 0.1, 0.2] := by
    rw [transient_times_eq]
    unfold sampleTimes
    rw [hsc, show List.range 3 = [0, 1, 2] from rfl]
    simp only [List.map_cons, List.map_nil]
    rw [round2_eq _ 0 (by norm_num), round2_eq _ 10 (by norm_num),
      round2_eq _ 20 (by norm_num)]
    norm_num
  refine ⟨by norm_num, by norm_num, hlist, ?_⟩
  rw [hlist]
  norm_num

/-- C4 (corrected): for `stepSize > 0` and `duration ≥ 0` the time column
is `round2(k·stepSize)` for `k = 0 … ⌊duration/stepSize⌋`; it starts at 0
and every grid point lies in [0, duration]; the endpoint `duration`
itself appears exactly when it is a multiple of `stepSize`; and the
rounded times are strictly increasing provided `stepSize ≥ 0.01` (for
smaller steps the 2-decimal rounding collapses neighbours). -/
theorem transient_time_grid (so : ℚ → ℚ) (startFlow targetFlow : ℚ)
    (mode : SimulationMode) (duration stepSize : ℚ)
    (hs : 0 < stepSize) (hd : 0 ≤ duration) :
    ((simulateTransient so startFlow targetFlow mode duration stepSize).timeSeries.map
        TimeSeriesSample.time) =
      (List.range (⌊duration / stepSize⌋.toNat + 1)).map
        (fun k : ℕ => round2 ((k : ℚ) * stepSize)) ∧
      ((simulateTransient so startFlow targetFlow mode duration stepSize).timeSeries.map
          TimeSeriesSample.time).head? = some 0 ∧
      (∀ k ∈ List.range (stepCount duration stepSize),
        0 ≤ (k : ℚ) * stepSize ∧ (k : ℚ) * stepSize ≤ duration) ∧
      ((∃ m : ℕ, duration = (m : ℚ) * stepSize) →
        ((simulateTransient so startFlow targetFlow mode duration stepSize).timeSeries.map
            TimeSeriesSample.time).getLast? = some (round2 duration)) ∧
      ((0.01 : ℚ) ≤ stepSize →
        ((simulateTransient so startFlow targetFlow mode duration stepSize).timeSeries.map
            TimeSeriesSample.time).Chain' (· < ·)) := by
  have hcount : stepCount duration stepSize = ⌊duration / stepSize⌋.toNat + 1 :=
    if_pos ⟨hs, hd⟩
  have htimes := transient_times_eq so startFlow targetFlow mode duration stepSize
  have hgrid : (simulateTransient so startFlow targetFlow mode duration
      stepSize).timeSeries.map TimeSeriesSample.time =
      (List.range (⌊duration / stepSize⌋.toNat + 1)).map
        (fun k : ℕ => round2 ((k : ℚ) * stepSize)) := by
    rw [htimes]
    unfold sampleTimes
    rw [hcount, List.map_map]
    rfl
  refine ⟨hgrid, ?_, ?_, ?_, ?_⟩
  · rw [hgrid, List.head?_map, List.range_succ_eq_map]
    simp only [List.head?_cons, Option.map_some', Nat.cast_zero, zero_mul]
    norm_num [round2, jsRound]
  · intro k hk
    rw [List.mem_range, hcount] at hk
    have hk' : (k : ℚ) ≤ duration / stepSize := by
      have h1 : k ≤ ⌊duration / stepSize⌋.toNat := Nat.lt_succ_iff.mp hk
      have h2 : (0 : ℤ) ≤ ⌊duration / stepSize⌋ :=
        Int.floor_nonneg.mpr (div_nonneg hd hs.le)
      have h3 : ((k : ℤ) : ℚ) ≤ ((⌊duration / stepSize⌋.toNat : ℤ) : ℚ) := by
        exact_mod_cast h1
      rw [Int.toNat_of_nonneg h2] at h3
      calc ((k : ℕ) : ℚ) = ((k : ℤ) : ℚ) := by push_cast; rfl
        _ ≤ (⌊duration / stepSize⌋ : ℚ) := h3
        _ ≤ duration / stepSize := Int.floor_le _
    constructor
    · positivity
    · have h4 : (k : ℚ) * stepSize ≤ duration / stepSize * stepSize :=
        mul_le_mul_of_nonneg_right hk' hs.le
      rwa [div_mul_cancel₀ duration hs.ne'] at h4
  · rintro ⟨m, hm⟩
    have hfloor : ⌊duration / stepSize⌋ = (m : ℤ) := by
      rw [hm, mul_div_cancel_right₀ _ hs.ne']
      exact Int.floor_natCast m
    rw [hgrid, List.getLast?_map, hfloor, Int.toNat_natCast, List.range_succ,
      List.getLast?_concat]
    simp only [Option.map_some']
    rw [hm]
  · intro hsmall
    rw [hgrid, List.chain'_map]
    refine (List.chain'_range_succ _ _).mpr fun m hm => ?_
    apply round2_strict_mono
    push_cast
    nlinarith

/-- Witness for the amended C4 at the default duration 30 and step 0.1
(300 steps): the grid starts at 0, ends at the duration (30 = 300×0.1),
and is strictly increasing. -/
theorem transient_time_grid_witness :
    (0 : ℚ) < STEP_SIZE ∧ (0 : ℚ) ≤ DEFAULT_DURATION ∧
      ((simulateTransient (fun _ => 0) 0 0 SimulationMode.stable DEFAULT_DURATION
          STEP_SIZE).timeSeries.map TimeSeriesSample.time).head? = some 0 ∧
      ((simulateTransient (fun _ => 0) 0 0 SimulationMode.stable DEFAULT_DURATION
          STEP_SIZE).timeSeries.map TimeSeriesSample.time).getLast? =
        some (round2 DEFAULT_DURATION) ∧
      ((simulateTransient (fun _ => 0) 0 0 SimulationMode.stable DEFAULT_DURATION
          STEP_SIZE).timeSeries.map TimeSeriesSample.time).Chain' (· < ·) := by
  have h := transient_time_grid (fun _ => 0) 0 0 SimulationMode.stable DEFAULT_DURATION
    STEP_SIZE (by norm_num [STEP_SIZE]) (by norm_num [DEFAULT_DURATION])
  exact ⟨by norm_num [STEP_SIZE], by norm_num [DEFAULT_DURATION], h.2.1,
    h.2.2.2.1 ⟨300, by norm_num [DEFAULT_DURATION, STEP_SIZE]⟩,
    h.2.2.2.2 (by norm_num [STEP_SIZE])⟩

end PumpSim
